import Mathlib

/-!
Verification development for the used-car scout deal-assessment engine
(src/hunt.py). The Python source is shallowly embedded: each Lean
definition mirrors one Python function or one inline block of main().
Machine floats are modelled by exact rationals, Python integers by Int,
Python string membership (the in operator and literal regex search) by
substring containment on character lists. External library calls
(unicodedata.normalize, numpy percentiles, sklearn KFold shuffling and
the gradient-boosting regressor) are modelled as stated at each site.
-/

namespace UsedCarScout

/-- Substring containment on strings, modelling the Python operator
(pat in s) and re.search of an escaped literal: true iff pat occurs
contiguously inside s. -/
def strContains (s pat : String) : Bool := decide (pat.toList <:+: s.toList)

/-- Round to the nearest integer with ties going to the even integer,
the idealised semantics of the Python builtin round applied to an exact
rational value. -/
def roundHalfEven (x : ℚ) : ℤ :=
  let f := ⌊x⌋
  let r := x - f
  if r < 1/2 then f
  else if 1/2 < r then f + 1
  else if f % 2 = 0 then f else f + 1

/-- Round a rational to d decimal places, ties to even, modelling the
Python builtin round(x, d). -/
def roundQ (x : ℚ) (d : ℕ) : ℚ := (roundHalfEven (x * 10 ^ d) : ℚ) / 10 ^ d

/-- Truncation toward zero, modelling the Python builtin int() applied
to a float. -/
def truncQ (x : ℚ) : ℤ := if 0 ≤ x then ⌊x⌋ else ⌈x⌉

/-- Vehicle reference entry, mirroring the dataclass VehicleModel of the
source (maker, model, name_variants, is_suv, is_kei, body_types). The
Python sets are carried as lists; only membership is ever used. -/
structure VehicleModel where
  maker : String
  model : String
  nameVariants : List String
  isSuv : Bool
  isKei : Bool
  bodyTypes : List String
deriving Repr, DecidableEq, Inhabited

/-- Static reference table SUV_DATABASE of the source, in its insertion
order (the order is the tie-break of the classifier loop). -/
def SUV_DATABASE : List (String × VehicleModel) := [
  ("ハリアー", ⟨"トヨタ", "ハリアー", ["HARRIER", "harrier"], true, false, ["SUV", "クロスオーバーSUV"]⟩),
  ("RAV4", ⟨"トヨタ", "RAV4", ["ラヴフォー", "ラブフォー"], true, false, ["SUV", "クロスオーバーSUV"]⟩),
  ("ランドクルーザー", ⟨"トヨタ", "ランドクルーザー", ["LANDCRUISER", "ランクル", "LC"], true, false, ["SUV", "クロカン"]⟩),
  ("ランドクルーザープラド", ⟨"トヨタ", "プラド", ["PRADO", "ランクルプラド"], true, false, ["SUV", "クロカン"]⟩),
  ("C-HR", ⟨"トヨタ", "C-HR", ["CHR", "chr"], true, false, ["SUV", "コンパクトSUV"]⟩),
  ("カローラクロス", ⟨"トヨタ", "カローラクロス", ["COROLLA CROSS"], true, false, ["SUV"]⟩),
  ("ヤリスクロス", ⟨"トヨタ", "ヤリスクロス", ["YARIS CROSS"], true, false, ["SUV", "コンパクトSUV"]⟩),
  ("ライズ", ⟨"トヨタ", "ライズ", ["RAIZE"], true, false, ["SUV", "コンパクトSUV"]⟩),
  ("ハイラックス", ⟨"トヨタ", "ハイラックス", ["HILUX"], true, false, ["ピックアップトラック", "SUV"]⟩),
  ("エクストレイル", ⟨"日産", "エクストレイル", ["X-TRAIL", "XTRAIL"], true, false, ["SUV"]⟩),
  ("キックス", ⟨"日産", "キックス", ["KICKS", "e-POWER"], true, false, ["SUV", "コンパクトSUV"]⟩),
  ("ジューク", ⟨"日産", "ジューク", ["JUKE"], true, false, ["SUV", "コンパクトSUV"]⟩),
  ("ムラーノ", ⟨"日産", "ムラーノ", ["MURANO"], true, false, ["SUV"]⟩),
  ("テラノ", ⟨"日産", "テラノ", ["TERRANO"], true, false, ["SUV", "クロカン"]⟩),
  ("アリア", ⟨"日産", "アリア", ["ARIYA"], true, false, ["SUV", "電気自動車"]⟩),
  ("ヴェゼル", ⟨"ホンダ", "ヴェゼル", ["VEZEL", "ベゼル"], true, false, ["SUV", "コンパクトSUV"]⟩),
  ("CR-V", ⟨"ホンダ", "CR-V", ["CRV", "シーアールブイ"], true, false, ["SUV"]⟩),
  ("ZR-V", ⟨"ホンダ", "ZR-V", ["ZRV"], true, false, ["SUV"]⟩),
  ("CX-3", ⟨"マツダ", "CX-3", ["cx3", "シーエックススリー"], true, false, ["SUV", "コンパクトSUV"]⟩),
  ("CX-30", ⟨"マツダ", "CX-30", ["cx30", "シーエックスサーティー"], true, false, ["SUV"]⟩),
  ("CX-5", ⟨"マツダ", "CX-5", ["cx5", "シーエックスファイブ"], true, false, ["SUV"]⟩),
  ("CX-8", ⟨"マツダ", "CX-8", ["cx8", "シーエックスエイト"], true, false, ["SUV", "3列シート"]⟩),
  ("CX-60", ⟨"マツダ", "CX-60", ["cx60"], true, false, ["SUV"]⟩),
  ("MX-30", ⟨"マツダ", "MX-30", ["mx30"], true, false, ["SUV", "電動"]⟩),
  ("フォレスター", ⟨"スバル", "フォレスター", ["FORESTER"], true, false, ["SUV"]⟩),
  ("XV", ⟨"スバル", "XV", ["CROSSTREK", "クロストレック"], true, false, ["SUV", "クロスオーバー"]⟩),
  ("レガシィアウトバック", ⟨"スバル", "アウトバック", ["OUTBACK", "レガシィ"], true, false, ["SUV", "クロスオーバー"]⟩),
  ("アセント", ⟨"スバル", "アセント", ["ASCENT"], true, false, ["SUV", "3列シート"]⟩),
  ("アウトランダー", ⟨"三菱", "アウトランダー", ["OUTLANDER", "PHEV"], true, false, ["SUV"]⟩),
  ("エクリプスクロス", ⟨"三菱", "エクリプスクロス", ["ECLIPSE CROSS"], true, false, ["SUV"]⟩),
  ("RVR", ⟨"三菱", "RVR", ["アールブイアール"], true, false, ["SUV", "コンパクトSUV"]⟩),
  ("パジェロ", ⟨"三菱", "パジェロ", ["PAJERO"], true, false, ["SUV", "クロカン"]⟩),
  ("ジムニー", ⟨"スズキ", "ジムニー", ["JIMNY"], true, true, ["軽自動車", "クロカン"]⟩),
  ("ジムニーシエラ", ⟨"スズキ", "ジムニーシエラ", ["JIMNY SIERRA"], true, false, ["SUV", "クロカン"]⟩),
  ("エスクード", ⟨"スズキ", "エスクード", ["ESCUDO"], true, false, ["SUV"]⟩),
  ("クロスビー", ⟨"スズキ", "クロスビー", ["XBEE", "CROSSBEE"], true, false, ["SUV", "コンパクトSUV"]⟩),
  ("ハスラー", ⟨"スズキ", "ハスラー", ["HUSTLER"], false, true, ["軽自動車", "軽SUV"]⟩),
  ("スペーシアギア", ⟨"スズキ", "スペーシアギア", ["SPACIA GEAR"], false, true, ["軽自動車"]⟩),
  ("タフト", ⟨"ダイハツ", "タフト", ["TAFT"], false, true, ["軽自動車", "軽SUV"]⟩),
  ("ロッキー", ⟨"ダイハツ", "ロッキー", ["ROCKY"], true, false, ["SUV", "コンパクトSUV"]⟩),
  ("テリオスキッド", ⟨"ダイハツ", "テリオスキッド", ["TERIOS KID"], false, true, ["軽自動車"]⟩)]

/-- Hard exclusion keyword list KEI_CAR_KEYWORDS of the source. -/
def KEI_CAR_KEYWORDS : List String := [
  "ハスラー", "HUSTLER", "タフト", "TAFT", "スペーシアギア", "SPACIA GEAR",
  "テリオスキッド", "TERIOS KID", "キャスト", "CAST", "アクティバ", "ACTIVA",
  "ウェイク", "WAKE", "軽自動車", "軽SUV", "K-CAR", "660cc", "660CC"]

/-- Case fold standing in for the Python upper method: the same action
as String.toUpper, written through the character list so that it
evaluates inside the kernel. -/
def upperStr (s : String) : String := String.mk (s.toList.map Char.toUpper)

/-- Modelled from the spec: the Text Normalizer folds width and case
variants to one canonical form. The source computes
normalize("NFKC", text.upper()); the Unicode NFKC table lives in the
Python standard library outside this repository, so the model keeps the
case fold and treats width folding as the identity. Every theorem that
consumes this definition takes its hypothesis on the normalised text,
so no proof depends on the internals of the fold. -/
def nfkcUpper (s : String) : String := upperStr s

/-- Regex alternation (軽自動車|軽SUV|660cc|660CC|K-?CAR) with
re.IGNORECASE, from the classifier constructor: literal alternatives
searched case-insensitively, the optional hyphen giving two spellings. -/
def keiRegexHit (text : String) : Bool :=
  strContains (upperStr text) "軽自動車" || strContains (upperStr text) "軽SUV" ||
  strContains (upperStr text) "660CC" || strContains (upperStr text) "K-CAR" ||
  strContains (upperStr text) "KCAR"

/-- Embeds VehicleClassifier._is_kei_car: any keyword of
KEI_CAR_KEYWORDS, uppercased, occurring in the text, or a hit of the
kei regex. -/
def is_kei_car (text : String) : Bool :=
  KEI_CAR_KEYWORDS.any (fun kw => strContains text (upperStr kw)) || keiRegexHit text

/-- Embeds VehicleClassifier._compile_patterns: the database entries
that are SUV and not kei, in insertion order, each carrying its
alternation of names (key, model name, variants). -/
def suv_patterns : List (String × VehicleModel) :=
  SUV_DATABASE.filter (fun kv => kv.2.isSuv && !kv.2.isKei)

/-- Match of one compiled pattern against a text: the alternation of the
key, the canonical model name and all variants, searched with
re.IGNORECASE (modelled by uppercasing both sides). -/
def patternHit (key : String) (m : VehicleModel) (text : String) : Bool :=
  (key :: m.model :: m.nameVariants).any
    (fun nm => strContains (upperStr text) (upperStr nm))

/-- Embeds VehicleClassifier._calculate_confidence: base 0.7, +0.15 for
the maker name in title or detail, +0.1 once if any body-type tag
occurs, plus 0.05 per matched variant capped at 0.15, all capped at 1. -/
def calculate_confidence (title detail : String) (m : VehicleModel) : ℚ :=
  let c0 : ℚ := 7/10
  let c1 := if strContains title m.maker || strContains detail m.maker
            then c0 + 15/100 else c0
  let c2 := if m.bodyTypes.any (fun bt => strContains title bt || strContains detail bt)
            then c1 + 1/10 else c1
  let variantCount : ℕ :=
    (m.nameVariants.filter (fun v => strContains (upperStr title) (upperStr v))).length
  let c3 := c2 + min ((variantCount : ℚ) * (5/100)) (15/100)
  min c3 1

/-- Weak generic keyword list of VehicleClassifier.classify. -/
def suvKeywords : List String :=
  ["SUV", "クロスオーバー", "クロカン", "4WD", "AWD", "オフロード"]

/-- Embeds VehicleClassifier.classify: normalise, run the hard kei
exclusion on the concatenation first, then scan the positive patterns in
insertion order against the raw texts, then the weak keyword fallback. -/
def classify (text detailedText : String) : Bool × String × ℚ :=
  let normalized := nfkcUpper text
  let detailedNorm := if detailedText ≠ "" then nfkcUpper detailedText else ""
  if is_kei_car (normalized ++ " " ++ detailedNorm) then (false, "軽自動車", 0)
  else
    match suv_patterns.find?
        (fun kv => patternHit kv.1 kv.2 text ||
          (detailedText ≠ "" && patternHit kv.1 kv.2 detailedText)) with
    | some kv => (true, kv.1, calculate_confidence text detailedText kv.2)
    | none =>
      if suvKeywords.any (fun kw => strContains normalized kw)
      then (true, "不明SUV", 3/10)
      else (false, "", 0)

/-- Scraped listing record: the dict built by the list parsers plus the
fields the scoring engine adds in place. Absent dict keys are modelled
by Option none or by the sentinel defaults the source uses. -/
structure Item where
  title : String := ""
  url : String := ""
  site : String := ""
  price : ℤ := 0
  year : ℤ := 0
  mileage : ℤ := 0
  confidence : ℚ := 1/2
  hasRepair : Bool := false
  predP50 : Option ℚ := none
  predP20 : Option ℚ := none
  priceToMedian : Option ℚ := none
  dealGap : Option ℤ := none
  score : ℚ := 0
  urgency : ℕ := 0
deriving Repr, DecidableEq, Inhabited

/-- Campaign configuration entry mirroring one element of
MONITORING_CONFIGS (the url parameters and page count are external to
the engine and carried only as data). -/
structure CampaignConfig where
  cname : String := ""
  site : String := ""
  priceMax : ℤ := 9999999
  yearMin : ℤ := 0
  mileageMax : ℤ := 9999999
  pages : ℕ := 1
deriving Repr, DecidableEq, Inhabited

/-- Market statistics dict built in main(); the source also stores a
standard deviation, which is irrational in general, is never read by any
downstream stage, and is therefore not carried in the model. -/
structure MarketStats where
  median : ℚ
  q25 : ℚ
  q75 : ℚ
  mean : ℚ
deriving Repr, DecidableEq, Inhabited

/-- Repair-history flag computed by parse_carsensor_list_enhanced from
the raw card text: the literal 修復歴あり, or any occurrence of the
single letter R. -/
def has_repair_of (text : String) : Bool :=
  strContains text "修復歴あり" || strContains text "R"

/-- Premium equipment keyword list of compute_enhanced_score. -/
def premiumKeywords : List String :=
  ["サンルーフ", "レザー", "革シート", "BOSE", "JBL",
   "マークレビンソン", "360度", "プロパイロット", "アイサイト",
   "ハンズフリー", "電動リアゲート", "マトリクスLED"]

/-- Price block of compute_enhanced_score: the descending step table on
price over median; when no bound is met, or when the median is undefined
(0), the base score stays at its initial value 50. -/
def priceBaseScore (price : ℤ) (medianPrice : ℚ) : ℚ :=
  if medianPrice ≠ 0 then
    let r := (price : ℚ) / medianPrice
    if r ≤ 6/10 then 95
    else if r ≤ 7/10 then 85
    else if r ≤ 8/10 then 75
    else if r ≤ 9/10 then 65
    else 50
  else 50

/-- Vehicle age as computed by compute_enhanced_score: current year
minus model year, or the sentinel 99 when the year is unknown (0). -/
def ageOf (currentYear year : ℤ) : ℤ :=
  if year ≠ 0 then currentYear - year else 99

/-- Age step adjustment of compute_enhanced_score. -/
def ageAdj (age : ℤ) : ℚ :=
  if age ≤ 3 then 15
  else if age ≤ 5 then 10
  else if age ≤ 8 then 5
  else if 15 ≤ age then -10
  else 0

/-- Annual-mileage step adjustment of compute_enhanced_score, skipped
when mileage is unknown (0). -/
def mileageAdj (age mileage : ℤ) : ℚ :=
  if mileage ≠ 0 then
    let annual : ℚ := (mileage : ℚ) / ((max age 1 : ℤ) : ℚ)
    if annual ≤ 5000 then 15
    else if annual ≤ 8000 then 10
    else if annual ≤ 12000 then 5
    else if 20000 ≤ annual then -10
    else 0
  else 0

/-- Equipment bonus of compute_enhanced_score: +2 for every premium
keyword found in the title. -/
def premiumBonus (title : String) : ℚ :=
  2 * ((premiumKeywords.filter (fun kw => strContains title kw)).length : ℚ)

/-- Predicted-gap bonus of compute_enhanced_score: +10/+7/+4 on the gap
between predicted median price and asking price, applied only when a
prediction is present and nonzero (Python truthiness of the float). -/
def gapAdj (predP50 : Option ℚ) (price : ℤ) : ℚ :=
  match predP50 with
  | some p =>
    if p ≠ 0 then
      let gap := p - (price : ℚ)
      if 500000 < gap then 10
      else if 300000 < gap then 7
      else if 100000 < gap then 4
      else 0
    else 0
  | none => 0

/-- Accumulated base score of compute_enhanced_score immediately before
the clamp to [0, 100]: price table plus age and mileage adjustments,
scaled by the confidence weight, then equipment bonus, repair penalty
and predicted-gap bonus. -/
def rawScore (currentYear : ℤ) (item : Item) (stats : Option MarketStats) : ℚ :=
  let medianPrice : ℚ := (stats.map MarketStats.median).getD 0
  let age := ageOf currentYear item.year
  (priceBaseScore item.price medianPrice + ageAdj age + mileageAdj age item.mileage)
      * (7/10 + 3/10 * item.confidence)
    + premiumBonus item.title
    - (if item.hasRepair then 25 else 0)
    + gapAdj item.predP50 item.price

/-- Score-to-urgency step table of compute_enhanced_score. -/
def scoreToUrgency (score : ℚ) : ℕ :=
  if 90 ≤ score then 5
  else if 80 ≤ score then 4
  else if 70 ≤ score then 3
  else if 60 ≤ score then 2
  else 1

/-- Embeds compute_enhanced_score: guard on unknown price, stored
price-over-median and deal-gap fields, clamp of the raw score to
[0, 100], urgency step table and the single conditional urgency boost
(median defined and price at or below 60 percent of it). The config
argument mirrors the Python parameter, which the function body never
reads. -/
def compute_enhanced_score (currentYear : ℤ) (item : Item)
    (stats : Option MarketStats) (config : CampaignConfig) : Item :=
  if item.price = 0 then { item with score := 0, urgency := 0 }
  else
    let medianPrice : ℚ := (stats.map MarketStats.median).getD 0
    let item1 :=
      if medianPrice ≠ 0 then
        { item with priceToMedian := some (roundQ ((item.price : ℚ) / medianPrice) 2) }
      else item
    let item2 :=
      match item.predP50 with
      | some p =>
        if p ≠ 0 then { item1 with dealGap := some (truncQ (p - (item.price : ℚ))) }
        else item1
      | none => item1
    let score : ℚ := max 0 (min 100 (rawScore currentYear item stats))
    let u0 := scoreToUrgency score
    let urgency :=
      if medianPrice ≠ 0 ∧ (item.price : ℚ) ≤ medianPrice * (6/10)
      then min 5 (u0 + 1) else u0
    { item2 with score := roundQ score 1, urgency := urgency }

/-- Linear-interpolated percentile of an already sorted list, the
numpy default method used by np.median and np.percentile in main():
rank (n-1)p/100, interpolate between the floor and ceiling elements. -/
def percentileLinear (sorted : List ℚ) (p : ℚ) : ℚ :=
  let n := sorted.length
  let rank := ((n : ℚ) - 1) * p / 100
  let lo := (⌊rank⌋).toNat
  let frac := rank - ⌊rank⌋
  let a := sorted.getD lo 0
  let b := sorted.getD (lo + 1) a
  a + frac * (b - a)

/-- Embeds the market-statistics block of main(): collect the strictly
positive prices of the batch; with fewer than 5 of them the stats dict
stays empty (none); otherwise median and quartiles by linear
interpolation over the sorted prices, and the arithmetic mean. -/
def marketStatsOf (vehicles : List Item) : Option MarketStats :=
  let prices : List ℚ := (vehicles.filter (fun v => 0 < v.price)).map (fun v => (v.price : ℚ))
  if 5 ≤ prices.length then
    let sorted := List.insertionSort (· ≤ ·) prices
    some { median := percentileLinear sorted 50,
           q25 := percentileLinear sorted 25,
           q75 := percentileLinear sorted 75,
           mean := prices.sum / (prices.length : ℚ) }
  else none

/-- Embeds the immediate bucket of main(): urgency at or above the
configured minimum. -/
def immediateItems (vehicles : List Item) (immediateMin : ℕ) : List Item :=
  vehicles.filter (fun v => decide (immediateMin ≤ v.urgency))

/-- Embeds the maybe pre-selection of main(): urgency exactly 3, or
score inside the closed configured interval. -/
def maybePool (vehicles : List Item) (scoreMin scoreMax : ℚ) : List Item :=
  vehicles.filter (fun v => v.urgency == 3 || decide (scoreMin ≤ v.score ∧ v.score ≤ scoreMax))

/-- Embeds the deduplication of main(): drop from the maybe pool every
listing whose url appears among the immediate urls. -/
def maybeItems (vehicles : List Item) (immediateMin : ℕ) (scoreMin scoreMax : ℚ) : List Item :=
  let immediateUrls := (immediateItems vehicles immediateMin).map Item.url
  (maybePool vehicles scoreMin scoreMax).filter (fun v => !immediateUrls.contains v.url)

/-- Embeds build_features: the fixed-width numeric feature vector of the
quantile predictor (year, mileage, age with sentinel 15, confidence,
equipment and model flags from title substrings, repair flag). -/
def build_features (currentYear : ℤ) (item : Item) : List ℚ :=
  [(item.year : ℚ), (item.mileage : ℚ),
   (if item.year ≠ 0 then ((currentYear - item.year : ℤ) : ℚ) else 15),
   item.confidence,
   if strContains item.title "サンルーフ" then 1 else 0,
   if ["レザー", "革シート", "本革"].any (fun kw => strContains item.title kw) then 1 else 0,
   if ["BOSE", "JBL", "マークレビンソン"].any (fun kw => strContains item.title kw) then 1 else 0,
   if ["4WD", "AWD", "四駆"].any (fun kw => strContains item.title kw) then 1 else 0,
   if strContains item.title "ハイブリッド" then 1 else 0,
   if strContains item.title "ターボ" then 1 else 0,
   if item.hasRepair then 1 else 0,
   if strContains item.title "ハリアー" then 1 else 0,
   if strContains item.title "RAV4" then 1 else 0,
   if strContains item.title "CX-5" then 1 else 0,
   if strContains item.title "フォレスター" then 1 else 0,
   if strContains item.title "エクストレイル" then 1 else 0]

/-- Feature matrix X of predict_quantiles, one row per listing. -/
def featuresOf (currentYear : ℤ) (items : List Item) : List (List ℚ) :=
  items.map (build_features currentYear)

/-- Target vector y of predict_quantiles: the listing prices. -/
def targetsOf (items : List Item) : List ℚ :=
  items.map (fun it => (it.price : ℚ))

/-- Positions of the valid_mask of predict_quantiles: the indices of the
listings with strictly positive price, ascending, as produced by
np.where(valid_mask). -/
def validIndices (items : List Item) : List ℕ :=
  (List.range items.length).filter (fun i => decide (0 < (items.getD i default).price))

/-- Fold sizes of sklearn KFold over m samples and k splits: the first
m mod k folds get one extra sample. -/
def foldSizes (m k : ℕ) : List ℕ :=
  (List.range k).map (fun i => m / k + if i < m % k then 1 else 0)

/-- Cut a list into consecutive blocks of the given sizes. -/
def splitBySizes (l : List ℕ) : List ℕ → List (List ℕ)
  | [] => []
  | s :: rest => l.take s :: splitBySizes (l.drop s) rest

/-- Modelled from the spec: sklearn KFold(n_splits=k, shuffle=True,
random_state=42) over m samples. The Mersenne-Twister shuffle is
library-internal, so it enters as an explicit permutation parameter; the
validation sets are the consecutive blocks of the shuffled index list
and each training set is the complement of its validation block inside
range m. Every theorem quantifies over the permutation, so nothing
depends on the concrete shuffle. -/
def kfoldSplits (m k : ℕ) (perm : List ℕ) : List (List ℕ × List ℕ) :=
  (splitBySizes perm (foldSizes m k)).map
    (fun test => ((List.range m).filter (fun i => !test.contains i), test))

/-- Per-fold pass of predict_quantiles: fit one quantile regressor on
the training rows of the fold and overwrite the prediction slots of the
held-out validation rows. The abstract fitPredict stands for
GradientBoostingRegressor(loss="quantile", alpha=q).fit(Xtr, ytr)
followed by predict, the replaceable black box of the spec. -/
def oofFoldStep (fitPredict : ℚ → List (List ℚ) → List ℚ → List ℚ → ℚ)
    (q : ℚ) (X : List (List ℚ)) (y : List ℚ) (validIdx : List ℕ)
    (preds : List (Option ℚ)) (fold : List ℕ × List ℕ) : List (Option ℚ) :=
  let trainIdx := fold.1.map (fun j => validIdx.getD j 0)
  let valIdx := fold.2.map (fun j => validIdx.getD j 0)
  let Xtr := trainIdx.map (fun i => X.getD i [])
  let ytr := trainIdx.map (fun i => y.getD i 0)
  valIdx.foldl (fun p i => p.set i (some (fitPredict q Xtr ytr (X.getD i [])))) preds

/-- Embeds predict_quantiles: absent predictions for every listing when
the batch has fewer than 20 listings or fewer than 15 strictly positive
prices; otherwise out-of-fold predictions per quantile over
KFold(min(5, valid/3)) restricted to the valid listings. The prediction
slots start as the all-absent row (np.nan, converted to None by the
caller), and listings with unknown price are never written. -/
def predict_quantiles (fitPredict : ℚ → List (List ℚ) → List ℚ → List ℚ → ℚ)
    (perm : List ℕ) (currentYear : ℤ) (items : List Item)
    (quantiles : List ℚ) : List (ℚ × List (Option ℚ)) :=
  if items.length < 20 then
    quantiles.map (fun q => (q, List.replicate items.length none))
  else
    let X := featuresOf currentYear items
    let y := targetsOf items
    let validIdx := validIndices items
    if validIdx.length < 15 then
      quantiles.map (fun q => (q, List.replicate items.length none))
    else
      let k := min 5 (validIdx.length / 3)
      let folds := kfoldSplits validIdx.length k perm
      quantiles.map (fun q =>
        (q, folds.foldl (oofFoldStep fitPredict q X y validIdx)
              (List.replicate items.length none)))

/-! Concrete fixtures used by the counterexamples and witnesses. -/

/-- Batch of exactly four listings with positive prices 100, 200, 300,
400 and no other data. -/
def c2Batch4 : List Item :=
  [{ price := 100 }, { price := 200 }, { price := 300 }, { price := 400 }]

/-- Batch of six listings with positive prices 100..600. -/
def c2Batch6 : List Item :=
  [{ price := 100 }, { price := 200 }, { price := 300 }, { price := 400 },
   { price := 500 }, { price := 600 }]

/-- First entry of MONITORING_CONFIGS: price ceiling 5,000,000, minimum
year 2015, mileage ceiling 100,000. -/
def toyotaSuvConfig : CampaignConfig :=
  { cname := "トヨタSUV", site := "carsensor", priceMax := 5000000,
    yearMin := 2015, mileageMax := 100000, pages := 2 }

/-- Listing that satisfies all three conditions of the claimed
small-batch fallback against toyotaSuvConfig: price 100 (far under 80
percent of the ceiling), year 2017 (two past the minimum), mileage
1,000 (far under 70 percent of the ceiling); neutral title, confidence
0.4, no repair flag, no predictions. -/
def c3Item : Item :=
  { title := "テスト", url := "u3", site := "carsensor", price := 100,
    year := 2017, mileage := 1000, confidence := 2/5 }

/-- Listing whose price is exactly 60 percent of the batch median and
whose predicted median exceeds its price by 600,000: both claimed boost
conditions hold. Low confidence and the repair flag keep the base score
in the lowest urgency step. -/
def c4Item : Item :=
  { title := "テスト", url := "u4", site := "carsensor", price := 600000,
    year := 0, mileage := 0, confidence := 2/5, hasRepair := true,
    predP50 := some 1200000 }

/-- Market stats with median 1,000,000 for the c4 counterexample. -/
def c4Stats : MarketStats :=
  { median := 1000000, q25 := 800000, q75 := 1200000, mean := 1000000 }

/-- Neutral listing parametrised by price: title with no premium
keyword, year 2015 (age 11 in 2026, no age adjustment), unknown
mileage, full confidence, no repair flag, no predictions. Against a
median of 1000 its score is exactly the price-table base score. -/
def c5Item (p : ℤ) : Item :=
  { title := "中古車", url := "u5", site := "carsensor", price := p,
    year := 2015, mileage := 0, confidence := 1 }

/-- Market stats with median 1000 for the price-table theorems. -/
def c5Stats : MarketStats := { median := 1000, q25 := 900, q75 := 1100, mean := 1000 }

/-- High-scoring listing for the repair-penalty counterexample: price
at half the median, age 1, annual mileage 1,000, full confidence. Its
pre-clamp score is 125, so the 25-point repair penalty disappears
entirely in the clamp to 100. -/
def c6Item : Item :=
  { title := "テスト", url := "u6", site := "carsensor", price := 500,
    year := 2025, mileage := 1000, confidence := 1 }

/-- Market stats with median 1000 for the c6 counterexample. -/
def c6Stats : MarketStats := { median := 1000, q25 := 900, q75 := 1100, mean := 1000 }

/-- Batch of three listings with valid positive prices, below the
minimum batch size of the quantile predictor. -/
def c9Batch : List Item :=
  [{ url := "a", price := 100 }, { url := "b", price := 200 }, { url := "c", price := 300 }]

/-- Accepted batch for the out-of-fold witness: twenty listings, all
with strictly positive price. -/
def c1Batch : List Item := List.replicate 20 { url := "w", price := 100 }

/-- Output row of the constant-zero regressor on c1Batch at quantile
one half: every slot is written by its fold. -/
def c1Row : ℚ × List (Option ℚ) := ((1/2 : ℚ), List.replicate 20 (some (0 : ℚ)))

/-! Helper lemmas shared by several claims. -/

/-- Lower bound of the half-even rounder: never below the floor. -/
lemma roundHalfEven_ge (x : ℚ) : ⌊x⌋ ≤ roundHalfEven x := by
  unfold roundHalfEven
  dsimp only
  split_ifs <;> omega

/-- Upper bound of the half-even rounder: never above the floor plus
one. -/
lemma roundHalfEven_le (x : ℚ) : roundHalfEven x ≤ ⌊x⌋ + 1 := by
  unfold roundHalfEven
  dsimp only
  split_ifs <;> omega

/-- Monotonicity of the half-even rounder. -/
lemma roundHalfEven_mono {x y : ℚ} (h : x ≤ y) : roundHalfEven x ≤ roundHalfEven y := by
  rcases lt_or_eq_of_le (Int.floor_le_floor h) with hf | hf
  · calc roundHalfEven x ≤ ⌊x⌋ + 1 := roundHalfEven_le x
      _ ≤ ⌊y⌋ := by omega
      _ ≤ roundHalfEven y := roundHalfEven_ge y
  · unfold roundHalfEven
    dsimp only
    rw [← hf]
    have hr : x - (⌊x⌋ : ℚ) ≤ y - (⌊x⌋ : ℚ) := by linarith
    split_ifs <;> first | omega | linarith

/-- Monotonicity of decimal rounding. -/
lemma roundQ_mono {x y : ℚ} (d : ℕ) (h : x ≤ y) : roundQ x d ≤ roundQ y d := by
  unfold roundQ
  have hpow : (0 : ℚ) < 10 ^ d := by positivity
  have h1 : roundHalfEven (x * 10 ^ d) ≤ roundHalfEven (y * 10 ^ d) :=
    roundHalfEven_mono (mul_le_mul_of_nonneg_right h (le_of_lt hpow))
  have h2 : ((roundHalfEven (x * 10 ^ d) : ℤ) : ℚ) ≤ ((roundHalfEven (y * 10 ^ d) : ℤ) : ℚ) := by
    exact_mod_cast h1
  exact div_le_div_of_nonneg_right h2 (le_of_lt hpow)

/-- Urgency step table never exceeds 5. -/
lemma scoreToUrgency_le_five (s : ℚ) : scoreToUrgency s ≤ 5 := by
  unfold scoreToUrgency
  split_ifs <;> omega

/-- Toggling only the repair flag moves the pre-clamp score down by
exactly 25: every other contribution of rawScore reads fields the
update leaves untouched. -/
lemma rawScore_repair_sub (cy : ℤ) (item : Item) (stats : Option MarketStats) :
    rawScore cy { item with hasRepair := true } stats =
      rawScore cy { item with hasRepair := false } stats - 25 := by
  simp [rawScore]
  ring

/-! Lemmas about the KFold partition and the out-of-fold write pattern,
used by the quantile-predictor claims. -/

/-- Concatenating the blocks of splitBySizes recovers the list when the
sizes sum to its length. -/
lemma splitBySizes_flatten (sizes : List ℕ) :
    ∀ l : List ℕ, sizes.sum = l.length → (splitBySizes l sizes).flatten = l := by
  induction sizes with
  | nil =>
    intro l h
    simp only [List.sum_nil] at h
    simp [splitBySizes, (List.eq_nil_of_length_eq_zero h.symm)]
  | cons s rest ih =>
    intro l h
    simp only [List.sum_cons] at h
    have hs : s ≤ l.length := by omega
    have hrest : rest.sum = (l.drop s).length := by
      rw [List.length_drop]
      omega
    simp only [splitBySizes, List.flatten_cons, ih (l.drop s) hrest]
    exact List.take_append_drop s l

/-- Every element of a splitBySizes block comes from the split list. -/
lemma splitBySizes_subset (sizes : List ℕ) :
    ∀ (l : List ℕ) (b : List ℕ), b ∈ splitBySizes l sizes → ∀ x ∈ b, x ∈ l := by
  induction sizes with
  | nil =>
    intro l b hb
    simp [splitBySizes] at hb
  | cons s rest ih =>
    intro l b hb x hx
    simp only [splitBySizes, List.mem_cons] at hb
    rcases hb with hb | hb
    · exact List.take_subset s l (hb ▸ hx)
    · exact List.drop_subset s l (ih (l.drop s) b hb x hx)

/-- The five sklearn fold sizes sum to the sample count. -/
lemma foldSizes_sum_five (m : ℕ) : (foldSizes m 5).sum = m := by
  unfold foldSizes
  rw [show List.range 5 = [0, 1, 2, 3, 4] from rfl]
  simp only [List.map_cons, List.map_nil, List.sum_cons, List.sum_nil]
  split_ifs <;> omega

/-- Positions untouched by a write pass keep their previous value. -/
lemma foldl_set_not_mem {α : Type} (v : ℕ → α) (js : List ℕ) (acc : List α) (i : ℕ)
    (h : i ∉ js) :
    (js.foldl (fun p j => p.set j (v j)) acc)[i]? = acc[i]? := by
  induction js generalizing acc with
  | nil => rfl
  | cons j rest ih =>
    have hij : i ≠ j := fun he => h (he ▸ List.mem_cons_self j rest)
    have hrest : i ∉ rest := fun hr => h (List.mem_cons_of_mem j hr)
    rw [List.foldl_cons, ih _ hrest, List.getElem?_set_ne (Ne.symm hij)]

/-- Positions covered by a write pass end at their written value (the
value depends only on the position, so repeated writes agree). -/
lemma foldl_set_mem {α : Type} (v : ℕ → α) (js : List ℕ) (acc : List α) (i : ℕ)
    (hmem : i ∈ js) (hlen : i < acc.length) :
    (js.foldl (fun p j => p.set j (v j)) acc)[i]? = some (v i) := by
  induction js generalizing acc with
  | nil => cases hmem
  | cons j rest ih =>
    rw [List.foldl_cons]
    by_cases hr : i ∈ rest
    · exact ih (acc.set j (v j)) hr (by rw [List.length_set]; exact hlen)
    · have hij : i = j := by
        rcases List.mem_cons.mp hmem with h | h
        · exact h
        · exact absurd h hr
      subst hij
      rw [foldl_set_not_mem v rest _ i hr, List.getElem?_set_self (by simpa using hlen)]

/-- A write pass preserves the row length. -/
lemma foldl_set_length {α : Type} (v : ℕ → α) (js : List ℕ) (acc : List α) :
    (js.foldl (fun p j => p.set j (v j)) acc).length = acc.length := by
  induction js generalizing acc with
  | nil => rfl
  | cons j rest ih => rw [List.foldl_cons, ih, List.length_set]

/-- One fold pass preserves the row length. -/
lemma oofFoldStep_length (fp : ℚ → List (List ℚ) → List ℚ → List ℚ → ℚ)
    (q : ℚ) (X : List (List ℚ)) (y : List ℚ) (validIdx : List ℕ)
    (acc : List (Option ℚ)) (fold : List ℕ × List ℕ) :
    (oofFoldStep fp q X y validIdx acc fold).length = acc.length := by
  unfold oofFoldStep
  exact foldl_set_length _ _ acc

/-- A sequence of fold passes preserves the row length. -/
lemma oof_foldl_length (fp : ℚ → List (List ℚ) → List ℚ → List ℚ → ℚ)
    (q : ℚ) (X : List (List ℚ)) (y : List ℚ) (validIdx : List ℕ)
    (fs : List (List ℕ × List ℕ)) (acc : List (Option ℚ)) :
    (fs.foldl (oofFoldStep fp q X y validIdx) acc).length = acc.length := by
  induction fs generalizing acc with
  | nil => rfl
  | cons f rest ih => rw [List.foldl_cons, ih, oofFoldStep_length]

/-- A position held out by no fold of a pass sequence keeps its value. -/
lemma oof_foldl_not_mem (fp : ℚ → List (List ℚ) → List ℚ → List ℚ → ℚ)
    (q : ℚ) (X : List (List ℚ)) (y : List ℚ) (validIdx : List ℕ)
    (fs : List (List ℕ × List ℕ)) (acc : List (Option ℚ)) (i : ℕ)
    (h : ∀ f ∈ fs, i ∉ f.2.map (fun j => validIdx.getD j 0)) :
    (fs.foldl (oofFoldStep fp q X y validIdx) acc)[i]? = acc[i]? := by
  induction fs generalizing acc with
  | nil => rfl
  | cons f rest ih =>
    rw [List.foldl_cons, ih _ (fun g hg => h g (List.mem_cons_of_mem f hg))]
    unfold oofFoldStep
    exact foldl_set_not_mem _ _ acc i (h f (List.mem_cons_self f rest))

/-- A position held out by a fold ends the pass holding the prediction
of the regressor fitted on the training rows of that fold. -/
lemma oofFoldStep_getElem_mem (fp : ℚ → List (List ℚ) → List ℚ → List ℚ → ℚ)
    (q : ℚ) (X : List (List ℚ)) (y : List ℚ) (validIdx : List ℕ)
    (acc : List (Option ℚ)) (fold : List ℕ × List ℕ) (i : ℕ)
    (hmem : i ∈ fold.2.map (fun j => validIdx.getD j 0)) (hlen : i < acc.length) :
    (oofFoldStep fp q X y validIdx acc fold)[i]? =
      some (some (fp q
        ((fold.1.map (fun j => validIdx.getD j 0)).map (fun idx => X.getD idx []))
        ((fold.1.map (fun j => validIdx.getD j 0)).map (fun idx => y.getD idx 0))
        (X.getD i []))) := by
  unfold oofFoldStep
  exact foldl_set_mem _ _ acc i hmem hlen

/-! Claim theorems. -/

/-- C2 counterexample: on a batch whose strictly positive prices are
exactly [100, 200, 300, 400] the market-statistics block of main()
returns the empty stats dict, so the median is undefined rather than
the claimed interpolated 250: the guard requires at least 5 positive
prices, not 4. -/
theorem c2_four_prices_counterexample :
    ((c2Batch4.filter (fun v => 0 < v.price)).map (fun v => (v.price : ℚ)))
      = [100, 200, 300, 400] ∧
    marketStatsOf c2Batch4 = none := by
  constructor
  · simp [c2Batch4]
  · rfl

/-- C2 amended: with fewer than 5 strictly positive prices in the batch
the market stats are undefined (in particular for exactly four); with
the six positive prices 100..600 the median is defined and equals 350
by linear interpolation between the third and fourth sorted values. -/
theorem c2_market_stats_minimum (batch : List Item)
    (h : (batch.filter (fun v => 0 < v.price)).length < 5) :
    marketStatsOf batch = none ∧
    (marketStatsOf c2Batch6).map MarketStats.median = some 350 := by
  constructor
  · simp only [marketStatsOf]
    rw [if_neg]
    simp only [List.length_map]
    omega
  · simp only [marketStatsOf, c2Batch6]
    norm_num [List.insertionSort, List.orderedInsert, percentileLinear]
    simp only [show Int.toNat 2 = 2 from rfl]
    norm_num

/-- C2 witness: the four-price batch discharges the hypothesis of the
amended theorem. -/
theorem c2_market_stats_minimum_witness :
    (c2Batch4.filter (fun v => 0 < v.price)).length < 5 ∧
    (marketStatsOf c2Batch4 = none ∧
      (marketStatsOf c2Batch6).map MarketStats.median = some 350) :=
  ⟨by decide, c2_market_stats_minimum c2Batch4 (by decide)⟩

/-- C5 counterexample: a neutral listing priced at 95 percent of the
median lands in no row of the step table, and its score stays at the
initial base 50, not the claimed 45 (nor 30); and when the median is
undefined the engine stores no price-over-median field at all instead
of the claimed 1.0. -/
theorem c5_base_table_counterexample :
    (compute_enhanced_score 2026 (c5Item 950) (some c5Stats) {}).score = 50 ∧
    (compute_enhanced_score 2026 (c5Item 950) (some c5Stats) {}).priceToMedian
      = some (19/20) ∧
    (compute_enhanced_score 2026 (c5Item 950) none {}).priceToMedian = none := by
  have hf : (premiumKeywords.filter (fun kw => strContains "中古車" kw)).length = 0 := by
    decide
  refine ⟨?_, ?_, ?_⟩
  · norm_num [compute_enhanced_score, rawScore, priceBaseScore, ageOf, ageAdj,
      mileageAdj, premiumBonus, gapAdj, c5Item, c5Stats, roundQ, roundHalfEven,
      scoreToUrgency, hf, min_def, max_def]
  · norm_num [compute_enhanced_score, c5Item, c5Stats, roundQ, roundHalfEven]
  · norm_num [compute_enhanced_score, c5Item]

/-- C5 amended: for every listing with known price, when the market
median is defined the engine stores price over median (rounded to two
decimals) and the pre-clamp score accumulation uses the base selected
by the first satisfied bound of the step table (ratio at most 0.6
gives 95, 0.7 gives 85, 0.8 gives 75, 0.9 gives 65) with the initial
50 for every higher ratio (there are no 45 and 30 rows); when the
median is undefined the price-over-median field is left untouched
(never set to 1.0) and the base stays 50. -/
theorem c5_base_score_table (cy : ℤ) (item : Item) (stats : Option MarketStats)
    (cfg : CampaignConfig) (hp : item.price ≠ 0) :
    ((stats.map MarketStats.median).getD 0 ≠ 0 →
      (compute_enhanced_score cy item stats cfg).priceToMedian =
        some (roundQ ((item.price : ℚ) / (stats.map MarketStats.median).getD 0) 2) ∧
      rawScore cy item stats =
        ((if (item.price : ℚ) / (stats.map MarketStats.median).getD 0 ≤ 6/10 then 95
          else if (item.price : ℚ) / (stats.map MarketStats.median).getD 0 ≤ 7/10 then 85
          else if (item.price : ℚ) / (stats.map MarketStats.median).getD 0 ≤ 8/10 then 75
          else if (item.price : ℚ) / (stats.map MarketStats.median).getD 0 ≤ 9/10 then 65
          else 50)
          + ageAdj (ageOf cy item.year) + mileageAdj (ageOf cy item.year) item.mileage)
          * (7/10 + 3/10 * item.confidence)
        + premiumBonus item.title
        - (if item.hasRepair then 25 else 0)
        + gapAdj item.predP50 item.price) ∧
    ((stats.map MarketStats.median).getD 0 = 0 →
      (compute_enhanced_score cy item stats cfg).priceToMedian = item.priceToMedian ∧
      rawScore cy item stats =
        (50 + ageAdj (ageOf cy item.year) + mileageAdj (ageOf cy item.year) item.mileage)
          * (7/10 + 3/10 * item.confidence)
        + premiumBonus item.title
        - (if item.hasRepair then 25 else 0)
        + gapAdj item.predP50 item.price) := by
  constructor
  · intro hm
    constructor
    · simp only [compute_enhanced_score, if_neg hp, if_pos hm]
      cases hpred : item.predP50 <;> first | rfl | (dsimp only; split_ifs <;> rfl)
    · simp only [rawScore, priceBaseScore, if_pos hm]
  · intro hm
    have hm2 : ¬((stats.map MarketStats.median).getD 0 ≠ 0) := fun h => h hm
    constructor
    · simp only [compute_enhanced_score, if_neg hp, if_neg hm2]
      cases hpred : item.predP50 <;> first | rfl | (dsimp only; split_ifs <;> rfl)
    · simp only [rawScore, priceBaseScore, if_neg hm2]

/-- C5 witness: the neutral listing at price 950 against median 1000
exercises both branches of the amended theorem, with the stored
ratio 0.95 falling past every table bound. -/
theorem c5_base_score_table_witness :
    ((c5Item 950).price ≠ 0 ∧
      ((some c5Stats).map MarketStats.median).getD 0 ≠ 0 ∧
      (((none : Option MarketStats).map MarketStats.median).getD 0 : ℚ) = 0) ∧
    ((compute_enhanced_score 2026 (c5Item 950) (some c5Stats) {}).priceToMedian =
        some (roundQ (((c5Item 950).price : ℚ) /
          ((some c5Stats).map MarketStats.median).getD 0) 2) ∧
      rawScore 2026 (c5Item 950) (some c5Stats) =
        ((if ((c5Item 950).price : ℚ) /
              ((some c5Stats).map MarketStats.median).getD 0 ≤ 6/10 then 95
          else if ((c5Item 950).price : ℚ) /
              ((some c5Stats).map MarketStats.median).getD 0 ≤ 7/10 then 85
          else if ((c5Item 950).price : ℚ) /
              ((some c5Stats).map MarketStats.median).getD 0 ≤ 8/10 then 75
          else if ((c5Item 950).price : ℚ) /
              ((some c5Stats).map MarketStats.median).getD 0 ≤ 9/10 then 65
          else 50)
          + ageAdj (ageOf 2026 (c5Item 950).year)
          + mileageAdj (ageOf 2026 (c5Item 950).year) (c5Item 950).mileage)
          * (7/10 + 3/10 * (c5Item 950).confidence)
        + premiumBonus (c5Item 950).title
        - (if (c5Item 950).hasRepair then 25 else 0)
        + gapAdj (c5Item 950).predP50 (c5Item 950).price) ∧
    ((compute_enhanced_score 2026 (c5Item 950) none {}).priceToMedian =
        (c5Item 950).priceToMedian ∧
      rawScore 2026 (c5Item 950) none =
        (50 + ageAdj (ageOf 2026 (c5Item 950).year)
          + mileageAdj (ageOf 2026 (c5Item 950).year) (c5Item 950).mileage)
          * (7/10 + 3/10 * (c5Item 950).confidence)
        + premiumBonus (c5Item 950).title
        - (if (c5Item 950).hasRepair then 25 else 0)
        + gapAdj (c5Item 950).predP50 (c5Item 950).price) :=
  ⟨⟨by decide, by simp [c5Stats], rfl⟩,
    (c5_base_score_table 2026 (c5Item 950) (some c5Stats) {} (by decide)).1
      (by simp [c5Stats]),
    (c5_base_score_table 2026 (c5Item 950) none {} (by decide)).2 rfl⟩

/-- C6 counterexample: two listings identical except for the repair
flag can both clamp to the maximum score 100, so the final score of the
flagged one is not 25 points lower (the difference is 0). -/
theorem c6_repair_clamp_counterexample :
    (compute_enhanced_score 2026 { c6Item with hasRepair := true } (some c6Stats) {}).score
      = 100 ∧
    (compute_enhanced_score 2026 { c6Item with hasRepair := false } (some c6Stats) {}).score
      = 100 := by
  have hf : (premiumKeywords.filter (fun kw => strContains "テスト" kw)).length = 0 := by
    decide
  constructor <;>
    norm_num [compute_enhanced_score, rawScore, priceBaseScore, ageOf, ageAdj,
      mileageAdj, premiumBonus, gapAdj, c6Item, c6Stats, roundQ, roundHalfEven,
      hf, min_def, max_def]

/-- C6 amended: toggling only the repair flag lowers the pre-clamp
score by exactly 25, and the stored (clamped, rounded) score of the
flagged listing never exceeds that of the unflagged one; after the
clamp to [0, 100] the gap can shrink below 25. -/
theorem c6_repair_penalty (cy : ℤ) (item : Item) (stats : Option MarketStats)
    (cfg : CampaignConfig) :
    rawScore cy { item with hasRepair := true } stats =
      rawScore cy { item with hasRepair := false } stats - 25 ∧
    (compute_enhanced_score cy { item with hasRepair := true } stats cfg).score ≤
      (compute_enhanced_score cy { item with hasRepair := false } stats cfg).score := by
  refine ⟨rawScore_repair_sub cy item stats, ?_⟩
  by_cases hp : item.price = 0
  · simp [compute_enhanced_score, hp]
  · have hraw : rawScore cy { item with hasRepair := true } stats ≤
        rawScore cy { item with hasRepair := false } stats := by
      rw [rawScore_repair_sub]
      linarith
    have hclamp : max 0 (min 100 (rawScore cy { item with hasRepair := true } stats)) ≤
        max 0 (min 100 (rawScore cy { item with hasRepair := false } stats)) :=
      max_le_max (le_refl 0) (min_le_min (le_refl 100) hraw)
    simp only [compute_enhanced_score, hp, if_neg hp]
    simpa using roundQ_mono 1 hclamp

/-- C7 (confirmed): whenever the kei-car exclusion fires on the
normalised concatenation of title and detail text, classify returns
no-match with the kei label and confidence 0, before any positive
pattern is consulted. -/
theorem c7_kei_exclusion_wins (title detailedText : String)
    (h : is_kei_car (nfkcUpper title ++ " " ++
          (if detailedText ≠ "" then nfkcUpper detailedText else "")) = true) :
    classify title detailedText = (false, "軽自動車", 0) := by
  simp only [classify]
  rw [if_pos h]

/-- C7 witness: a title holding both the positive alias RAV4 and the
kei keyword ハスラー is rejected outright by the exclusion. -/
theorem c7_kei_exclusion_wins_witness :
    strContains "トヨタ RAV4 ハスラー" "RAV4" = true ∧
    is_kei_car (nfkcUpper "トヨタ RAV4 ハスラー" ++ " " ++
      (if ("" : String) ≠ "" then nfkcUpper "" else "")) = true ∧
    classify "トヨタ RAV4 ハスラー" "" = (false, "軽自動車", 0) :=
  ⟨by decide, by decide, c7_kei_exclusion_wins "トヨタ RAV4 ハスラー" "" (by decide)⟩

/-- C3 counterexample: with the market median undefined, a listing that
independently satisfies all three claimed fallback conditions against
the first monitoring campaign (price far under 80 percent of the price
ceiling, year two past the minimum, mileage far under 70 percent of the
ceiling) still scores 53.3 with urgency 1: the engine has no
small-batch fallback, and in fact never reads the campaign config. -/
theorem c3_no_fallback_counterexample :
    (c3Item.price : ℚ) < (8/10) * (toyotaSuvConfig.priceMax : ℚ) ∧
    toyotaSuvConfig.yearMin + 2 ≤ c3Item.year ∧
    (c3Item.mileage : ℚ) < (7/10) * (toyotaSuvConfig.mileageMax : ℚ) ∧
    (compute_enhanced_score 2026 c3Item none toyotaSuvConfig).score < 80 ∧
    (compute_enhanced_score 2026 c3Item none toyotaSuvConfig).urgency < 4 := by
  have hf : (premiumKeywords.filter (fun kw => strContains "テスト" kw)).length = 0 := by
    decide
  refine ⟨?_, ?_, ?_, ?_, ?_⟩ <;>
    norm_num [compute_enhanced_score, rawScore, priceBaseScore, ageOf, ageAdj,
      mileageAdj, premiumBonus, gapAdj, c3Item, toyotaSuvConfig, roundQ,
      roundHalfEven, scoreToUrgency, hf, min_def, max_def]

/-- C3 amended: the scoring engine never reads the campaign
configuration (identical output for any two configs), and when the
market median is undefined and no prediction is attached the score does
not depend on the price at all, so no price-against-ceiling fallback
exists. -/
theorem c3_score_ignores_config (cy : ℤ) (item : Item) (stats : Option MarketStats)
    (c₁ c₂ : CampaignConfig) (p₁ p₂ : ℤ) (h₁ : p₁ ≠ 0) (h₂ : p₂ ≠ 0)
    (hm : (stats.map MarketStats.median).getD 0 = 0) (hp : item.predP50 = none) :
    compute_enhanced_score cy item stats c₁ = compute_enhanced_score cy item stats c₂ ∧
    (compute_enhanced_score cy { item with price := p₁ } stats c₁).score =
      (compute_enhanced_score cy { item with price := p₂ } stats c₁).score := by
  constructor
  · rfl
  · simp only [compute_enhanced_score, rawScore, priceBaseScore, gapAdj, hm, hp,
      if_neg h₁, if_neg h₂]
    norm_num

/-- C3 witness: concrete instantiation of the amended theorem at the
fallback listing. -/
theorem c3_score_ignores_config_witness :
    ((100 : ℤ) ≠ 0 ∧ (200 : ℤ) ≠ 0 ∧
      ((none : Option MarketStats).map MarketStats.median).getD 0 = 0 ∧
      c3Item.predP50 = none) ∧
    (compute_enhanced_score 2026 c3Item none toyotaSuvConfig =
        compute_enhanced_score 2026 c3Item none {} ∧
      (compute_enhanced_score 2026 { c3Item with price := 100 } none toyotaSuvConfig).score =
        (compute_enhanced_score 2026 { c3Item with price := 200 } none toyotaSuvConfig).score) :=
  ⟨⟨by decide, by decide, rfl, rfl⟩,
    c3_score_ignores_config 2026 c3Item none toyotaSuvConfig {} 100 200
      (by decide) (by decide) rfl rfl⟩

/-- C4 counterexample: a listing meeting both claimed boost conditions
(price exactly 60 percent of the median, and deal gap 600,000 above the
high threshold 500,000) in the lowest score step receives urgency 2,
not the min(5, 1 + 1 + 1) = 3 the stacked-boost claim predicts: only
the price-to-median boost exists, the deal gap grants none. -/
theorem c4_single_boost_counterexample :
    ((c4Item.price : ℚ) ≤ c4Stats.median * (6/10)) ∧
    (compute_enhanced_score 2026 c4Item (some c4Stats) {}).dealGap = some 600000 ∧
    (500000 : ℤ) < 600000 ∧
    (compute_enhanced_score 2026 c4Item (some c4Stats) {}).score < 60 ∧
    (compute_enhanced_score 2026 c4Item (some c4Stats) {}).urgency = 2 := by
  have hf : (premiumKeywords.filter (fun kw => strContains "テスト" kw)).length = 0 := by
    decide
  refine ⟨?_, ?_, ?_, ?_, ?_⟩ <;>
    norm_num [compute_enhanced_score, rawScore, priceBaseScore, ageOf, ageAdj,
      mileageAdj, premiumBonus, gapAdj, c4Item, c4Stats, roundQ, roundHalfEven,
      truncQ, scoreToUrgency, hf, min_def, max_def]

/-- C4 amended: for a known price the urgency is the score step table
value, incremented by one (capped at 5) exactly when the median is
defined and the price is at or below 60 percent of it; no other boost
exists, and the urgency never exceeds 5. -/
theorem c4_urgency_single_boost (cy : ℤ) (item : Item) (stats : Option MarketStats)
    (cfg : CampaignConfig) (h : item.price ≠ 0) :
    (compute_enhanced_score cy item stats cfg).urgency =
      (if (stats.map MarketStats.median).getD 0 ≠ 0 ∧
          (item.price : ℚ) ≤ (stats.map MarketStats.median).getD 0 * (6/10)
       then min 5 (scoreToUrgency (max 0 (min 100 (rawScore cy item stats))) + 1)
       else scoreToUrgency (max 0 (min 100 (rawScore cy item stats)))) ∧
    (compute_enhanced_score cy item stats cfg).urgency ≤ 5 := by
  constructor
  · simp only [compute_enhanced_score, if_neg h]
  · simp only [compute_enhanced_score, if_neg h]
    split_ifs
    · exact min_le_left _ _
    · exact scoreToUrgency_le_five _

/-- C4 witness: concrete instantiation of the amended urgency formula
at the double-boost-condition listing. -/
theorem c4_urgency_single_boost_witness :
    c4Item.price ≠ 0 ∧
    ((compute_enhanced_score 2026 c4Item (some c4Stats) {}).urgency =
      (if ((some c4Stats).map MarketStats.median).getD 0 ≠ 0 ∧
          (c4Item.price : ℚ) ≤ ((some c4Stats).map MarketStats.median).getD 0 * (6/10)
       then min 5 (scoreToUrgency (max 0 (min 100 (rawScore 2026 c4Item (some c4Stats)))) + 1)
       else scoreToUrgency (max 0 (min 100 (rawScore 2026 c4Item (some c4Stats))))) ∧
     (compute_enhanced_score 2026 c4Item (some c4Stats) {}).urgency ≤ 5) :=
  ⟨by decide, c4_urgency_single_boost 2026 c4Item (some c4Stats) {} (by decide)⟩

/-- C8 (confirmed): after the deduplication of main(), no listing of
the maybe bucket shares a url with any listing of the immediate bucket,
for every batch and every threshold configuration; the notifier
receives prefixes of these two lists, so the property carries over. -/
theorem c8_tier_dedup (vehicles : List Item) (immediateMin : ℕ) (scoreMin scoreMax : ℚ) :
    ((maybeItems vehicles immediateMin scoreMin scoreMax).all
      (fun v => (immediateItems vehicles immediateMin).all
        (fun w => !(w.url == v.url)))) = true := by
  rw [List.all_eq_true]
  intro v hv
  rw [List.all_eq_true]
  intro w hw
  simp only [maybeItems, List.mem_filter] at hv
  have hnc := hv.2
  rw [Bool.not_eq_true'] at hnc
  rw [Bool.not_eq_true']
  by_contra hne
  have hbeq : (w.url == v.url) = true := by
    cases hb : (w.url == v.url) with
    | false => exact absurd hb hne
    | true => rfl
  have heq : w.url = v.url := eq_of_beq hbeq
  have hmem : v.url ∈ (immediateItems vehicles immediateMin).map Item.url := by
    rw [← heq]
    exact List.mem_map_of_mem Item.url hw
  have hcontains :
      ((immediateItems vehicles immediateMin).map Item.url).contains v.url = true := by
    rw [List.contains_iff_exists_mem_beq]
    exact ⟨v.url, hmem, beq_self_eq_true v.url⟩
  rw [hcontains] at hnc
  exact absurd hnc (by simp)

/-- C9 (confirmed): with fewer than 20 listings, or with no strictly
positive price in the batch, predict_quantiles returns the all-absent
row for every requested quantile. -/
theorem c9_degenerate_absent (fitPredict : ℚ → List (List ℚ) → List ℚ → List ℚ → ℚ)
    (perm : List ℕ) (cy : ℤ) (items : List Item) (quantiles : List ℚ)
    (h : items.length < 20 ∨ ∀ it ∈ items, it.price ≤ 0) :
    predict_quantiles fitPredict perm cy items quantiles =
      quantiles.map (fun q => (q, List.replicate items.length none)) := by
  by_cases hl : items.length < 20
  · simp only [predict_quantiles]
    rw [if_pos hl]
  · have hall : ∀ it ∈ items, it.price ≤ 0 := h.resolve_left hl
    have hv : validIndices items = [] := by
      unfold validIndices
      rw [List.filter_eq_nil]
      intro i hi
      have hlen : i < items.length := List.mem_range.mp hi
      have hmem : items.getD i default ∈ items := by
        rw [List.getD_eq_getElem items default hlen]
        exact List.getElem_mem hlen
      simp only [decide_eq_true_eq, not_lt]
      exact hall _ hmem
    simp only [predict_quantiles]
    rw [if_neg hl, if_pos (by rw [hv]; norm_num)]

/-- C9 witness: a three-listing batch with valid prices is below the
minimum and yields only absent predictions. -/
theorem c9_degenerate_absent_witness :
    c9Batch.length < 20 ∧
    predict_quantiles (fun _ _ _ _ => 0) [] 2026 c9Batch [1/2, 1/5] =
      [1/2, 1/5].map (fun q => ((q : ℚ), List.replicate c9Batch.length (none : Option ℚ))) :=
  ⟨by decide, c9_degenerate_absent _ _ _ _ _ (Or.inl (by decide))⟩

/-- C10 (confirmed): the parser sets the repair flag whenever the card
text holds the literal 修復歴あり or any occurrence of the letter R
(hence every RAV4 or HARRIER title), and a flagged listing incurs
exactly the 25-point pre-clamp penalty of the scoring engine. -/
theorem c10_letter_r_repair (text : String) (cy : ℤ) (item : Item)
    (stats : Option MarketStats)
    (h : strContains text "修復歴あり" = true ∨ strContains text "R" = true) :
    has_repair_of text = true ∧
    rawScore cy { item with hasRepair := true } stats =
      rawScore cy { item with hasRepair := false } stats - 25 := by
  constructor
  · unfold has_repair_of
    rcases h with h | h <;> simp [h]
  · exact rawScore_repair_sub cy item stats

/-- C10 witness: the plain model name RAV4 contains the letter R and
triggers the flag on an accident-free listing. -/
theorem c10_letter_r_repair_witness :
    strContains "トヨタ RAV4 禁煙車" "R" = true ∧
    (has_repair_of "トヨタ RAV4 禁煙車" = true ∧
      rawScore 2026 { c3Item with hasRepair := true } none =
        rawScore 2026 { c3Item with hasRepair := false } none - 25) :=
  ⟨by decide, c10_letter_r_repair "トヨタ RAV4 禁煙車" 2026 c3Item none (Or.inr (by decide))⟩

/-- C1 (confirmed): on every batch predict_quantiles accepts (at least
20 listings, at least 15 with strictly positive price) and for every
requested quantile, the prediction slot of each positive-price listing
is written exactly by the fold that held it out: there is a fold of the
KFold partition whose validation images contain the listing, whose
training images do not (validation and training indices of a fold are
disjoint), and the stored prediction is the output of the regressor
fitted on the rows of that training set only. The theorem quantifies
over the shuffle permutation and the abstract fit-predict regressor. -/
theorem c1_quantile_out_of_fold
    (fitPredict : ℚ → List (List ℚ) → List ℚ → List ℚ → ℚ)
    (perm : List ℕ) (cy : ℤ) (items : List Item) (quantiles : List ℚ)
    (hlen : 20 ≤ items.length)
    (hvalid : 15 ≤ (validIndices items).length)
    (hperm : perm.Perm (List.range (validIndices items).length)) :
    ∀ p ∈ predict_quantiles fitPredict perm cy items quantiles,
    ∀ i, i ∈ validIndices items →
      ∃ tr te, (tr, te) ∈ kfoldSplits (validIndices items).length 5 perm ∧
        (∀ x ∈ te, x ∉ tr) ∧
        i ∈ te.map (fun j => (validIndices items).getD j 0) ∧
        i ∉ tr.map (fun j => (validIndices items).getD j 0) ∧
        p.2.getD i none = some (fitPredict p.1
          ((tr.map (fun j => (validIndices items).getD j 0)).map
            (fun idx => (featuresOf cy items).getD idx []))
          ((tr.map (fun j => (validIndices items).getD j 0)).map
            (fun idx => (targetsOf items).getD idx 0))
          ((featuresOf cy items).getD i [])) := by
  intro p hp i hi
  set validIdx := validIndices items with hvdef
  set m := validIdx.length with hmdef
  -- the batch is accepted and the fold count is min 5 (m / 3) = 5
  have hk : min 5 (m / 3) = 5 := min_eq_left (by omega)
  simp only [predict_quantiles] at hp
  rw [← hvdef] at hp
  rw [← hmdef] at hp
  rw [if_neg (by omega), if_neg (by omega), hk] at hp
  obtain ⟨q, hq, rfl⟩ := List.mem_map.mp hp
  -- locate the position of listing i inside the valid-index list
  obtain ⟨j, hj, hgetj⟩ := List.mem_iff_getElem.mp hi
  -- basic facts about the shuffle permutation
  have hplen : perm.length = m := by simpa using hperm.length_eq
  have hpnodup : perm.Nodup := hperm.nodup_iff.mpr (List.nodup_range m)
  have hpmem : ∀ x, x ∈ perm ↔ x < m := fun x => by
    rw [hperm.mem_iff, List.mem_range]
  -- the validation blocks partition the shuffled indices
  have hflat : (splitBySizes perm (foldSizes m 5)).flatten = perm :=
    splitBySizes_flatten _ perm (by rw [foldSizes_sum_five, hplen])
  have hfnodup : (splitBySizes perm (foldSizes m 5)).flatten.Nodup := by
    rw [hflat]; exact hpnodup
  obtain ⟨-, hpairwise⟩ := List.nodup_flatten.mp hfnodup
  -- the block holding position j, and the blocks after it
  have hjp : j ∈ perm := (hpmem j).mpr hj
  obtain ⟨b, hb, hjb⟩ := List.mem_flatten.mp (by rw [hflat]; exact hjp)
  obtain ⟨L₁, L₂, hdecomp⟩ := List.append_of_mem hb
  have hlater : ∀ b' ∈ L₂, j ∉ b' := by
    intro b' hb' hjb'
    rw [hdecomp] at hpairwise
    have h2 := (List.pairwise_append.mp hpairwise).2.1
    exact (List.pairwise_cons.mp h2).1 b' hb' hjb hjb'
  -- every block draws its positions from the permutation (hence < m)
  have hblock_lt : ∀ b' ∈ splitBySizes perm (foldSizes m 5), ∀ x ∈ b', x < m := by
    intro b' hb' x hx
    exact (hpmem x).mp (splitBySizes_subset _ perm b' hb' x hx)
  -- injectivity of the valid-index lookup below m
  have hvnodup : validIdx.Nodup := (List.nodup_range items.length).filter _
  have hinj : ∀ j₁ j₂, j₁ < m → j₂ < m →
      validIdx.getD j₁ 0 = validIdx.getD j₂ 0 → j₁ = j₂ := by
    intro j₁ j₂ h₁ h₂ he
    rw [List.getD_eq_getElem validIdx 0 h₁, List.getD_eq_getElem validIdx 0 h₂] at he
    exact (List.Nodup.getElem_inj_iff hvnodup).mp he
  -- the chosen fold
  refine ⟨(List.range m).filter (fun x => !b.contains x), b,
    List.mem_map_of_mem _ hb, ?_, ?_, ?_, ?_⟩
  · -- validation positions never sit in the training complement
    intro x hx hxtr
    have := (List.mem_filter.mp hxtr).2
    simp only [Bool.not_eq_true'] at this
    exact absurd ((List.contains_iff_exists_mem_beq).mpr ⟨x, hx, beq_self_eq_true x⟩)
      (by rw [this]; exact Bool.false_ne_true)
  · -- the listing lies in the validation image of its fold
    exact List.mem_map.mpr ⟨j, hjb, by rw [List.getD_eq_getElem validIdx 0 hj, hgetj]⟩
  · -- and not in the training image
    intro hmem
    obtain ⟨j', hj'tr, hval⟩ := List.mem_map.mp hmem
    have hj'm : j' < m := List.mem_range.mp (List.mem_filter.mp hj'tr).1
    have : j' = j := hinj j' j hj'm hj (by rw [hval, List.getD_eq_getElem validIdx 0 hj, hgetj])
    subst this
    have := (List.mem_filter.mp hj'tr).2
    simp only [Bool.not_eq_true'] at this
    exact absurd ((List.contains_iff_exists_mem_beq).mpr ⟨j', hjb, beq_self_eq_true j'⟩)
      (by rw [this]; exact Bool.false_ne_true)
  · -- the stored value is the one written by the holding fold
    have hilen : i < items.length := by
      have := List.mem_filter.mp hi
      exact List.mem_range.mp this.1
    -- split the fold list around the holding fold
    have hmap : kfoldSplits m 5 perm =
        (L₁.map (fun test => ((List.range m).filter (fun x => !test.contains x), test))) ++
          ((List.range m).filter (fun x => !b.contains x), b) ::
          (L₂.map (fun test => ((List.range m).filter (fun x => !test.contains x), test))) := by
      rw [kfoldSplits, hdecomp]
      simp [List.map_append]
    rw [hmap, List.foldl_append, List.foldl_cons]
    -- later folds never write position i
    have hnotlater : ∀ f ∈ L₂.map
        (fun test => ((List.range m).filter (fun x => !test.contains x), test)),
        i ∉ f.2.map (fun j => validIdx.getD j 0) := by
      intro f hf hmem
      obtain ⟨b', hb', rfl⟩ := List.mem_map.mp hf
      obtain ⟨j', hj'b', hval⟩ := List.mem_map.mp hmem
      have hb'blocks : b' ∈ splitBySizes perm (foldSizes m 5) := by
        rw [hdecomp]
        exact List.mem_append.mpr (Or.inr (List.mem_cons_of_mem b hb'))
      have hj'm : j' < m := hblock_lt b' hb'blocks j' hj'b'
      have : j' = j := hinj j' j hj'm hj
        (by rw [hval, List.getD_eq_getElem validIdx 0 hj, hgetj])
      subst this
      exact hlater b' hb' hj'b'
    rw [List.getD_eq_getElem?_getD,
      oof_foldl_not_mem fitPredict q (featuresOf cy items) (targetsOf items)
        validIdx _ _ i hnotlater]
    -- the holding fold writes the fitted prediction at position i
    have hacc_len :
        ((L₁.map (fun test => ((List.range m).filter (fun x => !test.contains x), test))).foldl
          (oofFoldStep fitPredict q (featuresOf cy items) (targetsOf items) validIdx)
          (List.replicate items.length none)).length = items.length := by
      rw [oof_foldl_length, List.length_replicate]
    rw [oofFoldStep_getElem_mem fitPredict q (featuresOf cy items) (targetsOf items)
      validIdx _ _ i
      (List.mem_map.mpr ⟨j, hjb, by rw [List.getD_eq_getElem validIdx 0 hj, hgetj]⟩)
      (by rw [hacc_len]; exact hilen)]
    simp

/-- C1 witness: on the concrete accepted batch with the identity
shuffle and the constant-zero regressor, listing 0 is held out by one
fold, absent from its training images, and carries that fold output. -/
theorem c1_quantile_out_of_fold_witness :
    (c1Row ∈ predict_quantiles (fun _ _ _ _ => 0) (List.range 20) 2026 c1Batch [1/2] ∧
      0 ∈ validIndices c1Batch ∧ 20 ≤ c1Batch.length ∧
      15 ≤ (validIndices c1Batch).length) ∧
    (∃ tr te, (tr, te) ∈ kfoldSplits (validIndices c1Batch).length 5 (List.range 20) ∧
      (∀ x ∈ te, x ∉ tr) ∧
      0 ∈ te.map (fun j => (validIndices c1Batch).getD j 0) ∧
      0 ∉ tr.map (fun j => (validIndices c1Batch).getD j 0) ∧
      c1Row.2.getD 0 none = some 0) := by
  have hmem : c1Row ∈
      predict_quantiles (fun _ _ _ _ => 0) (List.range 20) 2026 c1Batch [1/2] := by
    rw [show predict_quantiles (fun _ _ _ _ => (0 : ℚ)) (List.range 20) 2026 c1Batch [1/2]
        = [c1Row] from rfl]
    exact List.mem_singleton_self _
  refine ⟨⟨hmem, by decide, by decide, by decide⟩, ?_⟩
  exact c1_quantile_out_of_fold (fun _ _ _ _ => 0) (List.range 20) 2026 c1Batch [1/2]
    (by decide) (by decide) (List.Perm.refl _) c1Row hmem 0 (by decide)

end UsedCarScout
